import Mathlib

/-!
Verification of the rating-computation core of the `player-performance-ratings`
repository against its natural-language specification.

Python sources are shallowly embedded: pandas cells become `Option ℚ` (with
`none` standing for a missing value / NaN, whose arithmetic propagates like IEEE
NaN), dataframes become lists of association-list rows, floats in purely
algebraic code become `ℚ`, and code built on `math.exp` is embedded over `ℝ`
with `Real.exp`.  Fallible constructors return `Except`.  Components of the
repository that are referenced but whose source file is absent (the Bayesian
time-weighted rating engine, the confidence-weighted updater, and the stateful
collaborators orchestrated by `Pipeline`) are modelled from the specification,
as flagged in their doc comments.
-/

namespace PlayerPerformanceRatings

/-! ## data_structures.py -/

/-- Embeds the `ColumnNames` dataclass of
`player_performance_ratings/data_structures.py`.  Optional string fields are
`Option String` (`none` embeds Python `None`). -/
structure ColumnNames where
  team_id : String
  match_id : String
  start_date : String
  player_id : String
  performance : String
  league : Option String
  participation_weight : Option String
  projected_participation_weight : Option String
  team_players_percentage_playing_time : Option String
  rating_update_id : Option String
deriving Repr, DecidableEq

/-- Construction of a `ColumnNames`: the generated dataclass `__init__`
followed by `ColumnNames.__post_init__`, which defaults `rating_update_id`
to `match_id` and `projected_participation_weight` to
`participation_weight`. -/
def mkColumnNames (team_id match_id start_date player_id performance : String)
    (league participation_weight projected_participation_weight
      team_players_percentage_playing_time rating_update_id : Option String) :
    ColumnNames :=
  let cn : ColumnNames :=
    { team_id := team_id, match_id := match_id, start_date := start_date,
      player_id := player_id, performance := performance, league := league,
      participation_weight := participation_weight,
      projected_participation_weight := projected_participation_weight,
      team_players_percentage_playing_time := team_players_percentage_playing_time,
      rating_update_id := rating_update_id }
  let cn : ColumnNames :=
    match cn.rating_update_id with
    | none => { cn with rating_update_id := some cn.match_id }
    | some _ => cn
  match cn.projected_participation_weight with
  | none => { cn with projected_participation_weight := cn.participation_weight }
  | some _ => cn

/-! ## ratings/performances_generator.py: `ColumnWeight` (validated) and
transformation/pre_transformers.py: `ColumnWeight` (unvalidated) -/

/-- The `ColumnWeight` dataclass fields shared by both declarations of the
class (one in `ratings/performances_generator.py`, one in
`transformation/pre_transformers.py`). -/
structure ColumnWeight where
  name : String
  weight : ℚ
  lower_is_better : Bool
deriving Repr, DecidableEq

/-- Construction of the `ColumnWeight` declared in
`ratings/performances_generator.py`: its `__post_init__` raises `ValueError`
for a negative weight or a weight above 1. -/
def ColumnWeight.validatedMk (name : String) (weight : ℚ) (lower_is_better : Bool) :
    Except String ColumnWeight :=
  if weight < 0 then .error "Weight must be positive"
  else if weight > 1 then .error "Weight must be less than 1"
  else .ok ⟨name, weight, lower_is_better⟩

/-- Construction of the `ColumnWeight` declared in
`transformation/pre_transformers.py`: a plain dataclass with no
`__post_init__`, so construction never raises. -/
def ColumnWeight.transformationMk (name : String) (weight : ℚ) (lower_is_better : Bool) :
    Except String ColumnWeight :=
  .ok ⟨name, weight, lower_is_better⟩

/-! ## Theorems for claims C10 and C7 -/

/-- C10: a `ColumnNames` constructed without an explicit `rating_update_id`
gets `rating_update_id = match_id`; one constructed without an explicit
`projected_participation_weight` gets the `participation_weight` value
(possibly `None`); all other supplied fields are stored unchanged. -/
theorem columnNames_post_init_defaults (t m s p perf : String)
    (lg pw ppw tpp ru : Option String) :
    (mkColumnNames t m s p perf lg pw ppw tpp none).rating_update_id = some m
    ∧ (mkColumnNames t m s p perf lg pw none tpp ru).projected_participation_weight = pw
    ∧ (mkColumnNames t m s p perf lg pw ppw tpp ru).team_id = t
    ∧ (mkColumnNames t m s p perf lg pw ppw tpp ru).match_id = m
    ∧ (mkColumnNames t m s p perf lg pw ppw tpp ru).start_date = s
    ∧ (mkColumnNames t m s p perf lg pw ppw tpp ru).player_id = p
    ∧ (mkColumnNames t m s p perf lg pw ppw tpp ru).performance = perf
    ∧ (mkColumnNames t m s p perf lg pw ppw tpp ru).league = lg
    ∧ (mkColumnNames t m s p perf lg pw ppw tpp ru).participation_weight = pw
    ∧ (mkColumnNames t m s p perf lg pw ppw tpp ru).team_players_percentage_playing_time
        = tpp := by
  refine ⟨?_, ?_, ?_, ?_, ?_, ?_, ?_, ?_, ?_, ?_⟩ <;>
    · unfold mkColumnNames
      cases ppw <;> cases ru <;> simp

/-- C7 counterexample: the `ColumnWeight` dataclass declared in
`transformation/pre_transformers.py` performs no validation, so constructing
it with the negative weight `-1` succeeds instead of raising `ValueError`. -/
theorem columnWeight_negative_weight_accepted :
    ColumnWeight.transformationMk "kills" (-1) false = .ok ⟨"kills", -1, false⟩
    ∧ (-1 : ℚ) < 0 := by
  exact ⟨rfl, by norm_num⟩

/-- C7 (amended): the `ColumnWeight` declared in
`ratings/performances_generator.py` raises `ValueError` iff its weight is
negative or greater than 1, and with a weight in `[0, 1]` stores name, weight
and `lower_is_better` unchanged; the identically named dataclass in
`transformation/pre_transformers.py` performs no such validation and always
stores its fields unchanged without raising. -/
theorem columnWeight_validation (name : String) (w : ℚ) (lb : Bool) :
    ((∃ e, ColumnWeight.validatedMk name w lb = .error e) ↔ (w < 0 ∨ 1 < w))
    ∧ (0 ≤ w → w ≤ 1 → ColumnWeight.validatedMk name w lb = .ok ⟨name, w, lb⟩)
    ∧ ColumnWeight.transformationMk name w lb = .ok ⟨name, w, lb⟩ := by
  refine ⟨?_, ?_, rfl⟩
  · unfold ColumnWeight.validatedMk
    constructor
    · rintro ⟨e, he⟩
      by_contra hcon
      push_neg at hcon
      rw [if_neg (not_lt.mpr hcon.1), if_neg (not_lt.mpr hcon.2)] at he
      exact Except.noConfusion he
    · rintro (h | h)
      · exact ⟨"Weight must be positive", by rw [if_pos h]⟩
      · refine ⟨"Weight must be less than 1", ?_⟩
        rw [if_neg (not_lt.mpr (le_of_lt (lt_of_le_of_lt zero_le_one h))), if_pos h]
  · intro h0 h1
    unfold ColumnWeight.validatedMk
    rw [if_neg (not_lt.mpr h0), if_neg (not_lt.mpr h1)]

/-- Witness for `columnWeight_validation` at weight `1/2`. -/
theorem columnWeight_validation_witness :
    (0 : ℚ) ≤ 1/2 ∧ (1/2 : ℚ) ≤ 1
    ∧ ColumnWeight.validatedMk "kills" (1/2) false = .ok ⟨"kills", 1/2, false⟩ :=
  ⟨by norm_num, by norm_num,
    (columnWeight_validation "kills" (1/2) false).2.1 (by norm_num) (by norm_num)⟩

/-! ## Confidence-weighted rating updater (claim C5) -/

/-- Modelled from the spec: the rating-change magnitude of the
confidence-weighted rating updater (`player_performance_ratings/ratings/
match_rating/player_rating/player_rating_generator.py`, absent from `src/`):
`rating_change_multiplier × (actual − predicted) × (1 − confidence_ratio)`,
with the multiplier optionally floored by a minimum multiplier ratio so
experienced players still move a small amount (§4.5 step 2). -/
def ratingChangeMagnitude (rating_change_multiplier actual predicted
    confidence_ratio min_rating_change_multiplier_ratio : ℚ) : ℚ :=
  let applied_multiplier :=
    max (rating_change_multiplier * (1 - confidence_ratio))
        (rating_change_multiplier * min_rating_change_multiplier_ratio)
  applied_multiplier * (actual - predicted)

/-- C5: whenever the actual performance equals the predicted performance (in
particular a draw where the predictor returns exactly `0.5`), the computed
rating-change magnitude is exactly `0`, for every confidence ratio, every
`rating_change_multiplier` and every minimum-multiplier floor. -/
theorem ratingChange_zero_when_actual_eq_predicted
    (mult actual predicted conf minratio : ℚ) (h : actual = predicted) :
    ratingChangeMagnitude mult actual predicted conf minratio = 0 := by
  subst h
  simp [ratingChangeMagnitude]

/-- Witness for `ratingChange_zero_when_actual_eq_predicted`: the §8.7 draw
scenario, both performances `1/2`, predictor returning exactly `1/2`. -/
theorem ratingChange_zero_witness :
    (1/2 : ℚ) = 1/2
    ∧ ratingChangeMagnitude 50 (1/2) (1/2) (3/4) (1/10) = 0 :=
  ⟨rfl, ratingChange_zero_when_actual_eq_predicted 50 (1/2) (1/2) (3/4) (1/10) rfl⟩

/-! ## Bayesian time-weighted rating engine (claim C1) -/

/-- Modelled from the spec: the tunable constants of
`BayesianTimeWeightedRating`
(`player_performance_ratings/ratings/time_weight_ratings.py`, absent from
`src/`): the likelihood/evidence exponential decay bases, the likelihood
denominator, and the prior (§4.6). -/
structure BayesianTimeWeightedRating where
  likelihood_exponential_weight : ℚ
  evidence_exponential_weight : ℚ
  likelihood_denom : ℚ
  prior : ℚ
deriving Repr, DecidableEq

/-- The per-match output triple of the Bayesian time-weighted engine:
pre-match rating, likelihood ratio, and evidence (`none` embeds the Python
`None` produced for an entity with no history). -/
structure TimeWeightedOutput where
  rating : ℚ
  likelihood_ratio : ℚ
  evidence : Option ℚ
deriving Repr, DecidableEq

/-- Modelled from the spec (§4.6): the pre-match output of
`BayesianTimeWeightedRating` for one entity at day-ordinal `day`, given the
entity's past matches `past` as `(day_number, performance)` pairs.
`likelihood_ratio = Σ likelihood_weight^days_ago / likelihood_denom`;
the evidence is the evidence-weight-weighted average of past performances,
with the zero-denominator case of an empty history guarded to `none` (§7c);
`rating = evidence × likelihood_ratio + (1 − likelihood_ratio) × prior`,
where an undefined evidence contributes `0`. -/
def BayesianTimeWeightedRating.preMatchOutput (m : BayesianTimeWeightedRating)
    (past : List (ℕ × ℚ)) (day : ℕ) : TimeWeightedOutput :=
  let likelihood_sum :=
    (past.map fun dp => m.likelihood_exponential_weight ^ (day - dp.1)).sum
  let lr := likelihood_sum / m.likelihood_denom
  let evidence : Option ℚ :=
    if past.isEmpty then none
    else some
      ((past.map fun dp => m.evidence_exponential_weight ^ (day - dp.1) * dp.2).sum /
        (past.map fun dp => m.evidence_exponential_weight ^ (day - dp.1)).sum)
  let rating := (evidence.getD 0) * lr + (1 - lr) * m.prior
  ⟨rating, lr, evidence⟩

/-- Modelled from the spec (§4.6, §2): the historical pass of
`BayesianTimeWeightedRating` over one entity's chronologically ordered
matches: each match gets the pre-match output computed from the strictly
earlier matches, after which the match is appended to the history. -/
def BayesianTimeWeightedRating.generateHistorical (m : BayesianTimeWeightedRating) :
    List (ℕ × ℚ) → List (ℕ × ℚ) → List TimeWeightedOutput
  | _, [] => []
  | past, dp :: rest =>
      m.preMatchOutput past dp.1 :: m.generateHistorical (past ++ [dp]) rest

/-- Sanity check of the model against
`tests/ratings/test_time_weight_rating_generator.py`: for matches at days
0, 1 and 24 with performances 1, 0 and 1/2, the second and third outputs are
exactly the formulas asserted by the test. -/
theorem bayesianTimeWeighted_matches_test (m : BayesianTimeWeightedRating)
    (hew : m.evidence_exponential_weight ≠ 0) :
    m.generateHistorical [] [(0, 1), (1, 0), (24, 1/2)] =
      [⟨m.prior, 0, none⟩,
       ⟨1 * (m.likelihood_exponential_weight ^ 1 / m.likelihood_denom)
          + (1 - m.likelihood_exponential_weight ^ 1 / m.likelihood_denom) * m.prior,
        m.likelihood_exponential_weight ^ 1 / m.likelihood_denom,
        some 1⟩,
       ⟨(m.evidence_exponential_weight ^ 24 * 1 /
            (m.evidence_exponential_weight ^ 23 + m.evidence_exponential_weight ^ 24)) *
          ((m.likelihood_exponential_weight ^ 23 + m.likelihood_exponential_weight ^ 24) /
            m.likelihood_denom)
          + (1 - (m.likelihood_exponential_weight ^ 23 + m.likelihood_exponential_weight ^ 24) /
              m.likelihood_denom) * m.prior,
        (m.likelihood_exponential_weight ^ 23 + m.likelihood_exponential_weight ^ 24) /
          m.likelihood_denom,
        some (m.evidence_exponential_weight ^ 24 * 1 /
          (m.evidence_exponential_weight ^ 23 + m.evidence_exponential_weight ^ 24))⟩] := by
  simp [BayesianTimeWeightedRating.generateHistorical,
    BayesianTimeWeightedRating.preMatchOutput, div_self (pow_ne_zero 1 hew)]
  ring_nf
  have h := mul_inv_cancel₀ hew
  simp [h]

/-- C1: at an entity's first-ever match (zero prior matches), the Bayesian
time-weighted engine produces a likelihood ratio of exactly `0`, an undefined
(`None`) evidence, and a pre-match rating exactly equal to the configured
prior — both as the pre-match output of an empty history and as the first
element of any historical pass. -/
theorem bayesianTimeWeighted_first_appearance (m : BayesianTimeWeightedRating)
    (day : ℕ) (perf : ℚ) (rest : List (ℕ × ℚ)) :
    m.preMatchOutput [] day = ⟨m.prior, 0, none⟩
    ∧ (m.generateHistorical [] ((day, perf) :: rest)).head? =
        some ⟨m.prior, 0, none⟩ := by
  constructor
  · simp [BayesianTimeWeightedRating.preMatchOutput]
  · simp [BayesianTimeWeightedRating.generateHistorical,
      BayesianTimeWeightedRating.preMatchOutput]

/-! ## ratings/match_rating/performance_predictor.py (claims C3 and C4)

`math.exp` is embedded as `Real.exp`; the expression
`exp(value) / (1 + exp(value))` the code computes is the logistic sigmoid. -/

/-- The logistic sigmoid in the form computed by
`performance_predictor.py`: `exp(value) / (1 + exp(value))`. -/
noncomputable def sigmoid (value : ℝ) : ℝ := Real.exp value / (1 + Real.exp value)

theorem sigmoid_pos (v : ℝ) : 0 < sigmoid v := by
  unfold sigmoid; positivity

theorem sigmoid_lt_one (v : ℝ) : sigmoid v < 1 := by
  unfold sigmoid
  rw [div_lt_one (by positivity)]
  linarith [Real.exp_pos v]

/-- The `if prediction > max ... elif prediction < 1 - max ...` chain both
predictors end with agrees with mathematical clamping to `[1 - M, M]`
whenever that interval is non-empty (`1/2 ≤ M`). -/
theorem clamp_if_eq_min_max (M x : ℝ) (hM : 1/2 ≤ M) :
    (if x > M then M else if x < 1 - M then 1 - M else x)
      = min M (max (1 - M) x) := by
  have h1 : 1 - M ≤ M := by linarith
  rcases lt_or_le M x with h | h
  · rw [if_pos h, max_eq_right (by linarith), min_eq_left (le_of_lt h)]
  · rw [if_neg (not_lt.mpr h)]
    rcases lt_or_le x (1 - M) with h2 | h2
    · rw [if_pos h2, max_eq_left (le_of_lt h2), min_eq_right h1]
    · rw [if_neg (not_lt.mpr h2), max_eq_right h2, min_eq_right h]

/-- Embeds `RatingDifferencePerformancePredictor` (its four constructor
coefficients; it holds no mutable state). -/
structure RatingDifferencePerformancePredictor where
  rating_diff_coef : ℝ
  rating_diff_team_from_entity_coef : ℝ
  team_rating_diff_coef : ℝ
  max_predict_value : ℝ

/-- Embeds `RatingDifferencePerformancePredictor.predict_performance`.  Only
the rating values of the pre-match player/team rating objects are read, so
they are embedded as `ℝ`; `team_rating` may be `None`. -/
noncomputable def RatingDifferencePerformancePredictor.predict_performance
    (p : RatingDifferencePerformancePredictor)
    (player_rating opponent_team_rating : ℝ) (team_rating : Option ℝ) : ℝ :=
  let rating_difference := player_rating - opponent_team_rating
  let rating_diff_team_from_entity : ℝ :=
    match team_rating with
    | some t => t - player_rating
    | none => 0
  let team_rating_diff : ℝ :=
    match team_rating with
    | some t => t - opponent_team_rating
    | none => 0
  let value := p.rating_diff_coef * rating_difference
    + p.rating_diff_team_from_entity_coef * rating_diff_team_from_entity
    + team_rating_diff * p.team_rating_diff_coef
  let prediction := Real.exp value / (1 + Real.exp value)
  if prediction > p.max_predict_value then p.max_predict_value
  else if prediction < 1 - p.max_predict_value then 1 - p.max_predict_value
  else prediction

/-- C3: `RatingDifferencePerformancePredictor.predict_performance` returns
`sigmoid(c1·(player−opponent) + c2·(team−player) + c3·(team−opponent))`
(team terms `0` when the team rating is absent) clamped to
`[1 − max_predict_value, max_predict_value]`, and for `max_predict_value`
in `[1/2, 1]` the result lies in that interval and hence in `[0, 1]`. -/
theorem ratingDifference_predict_spec (p : RatingDifferencePerformancePredictor)
    (player_rating opponent_team_rating : ℝ) (team_rating : Option ℝ)
    (h1 : 1/2 ≤ p.max_predict_value) (h2 : p.max_predict_value ≤ 1) :
    p.predict_performance player_rating opponent_team_rating team_rating
      = min p.max_predict_value (max (1 - p.max_predict_value)
          (sigmoid (p.rating_diff_coef * (player_rating - opponent_team_rating)
            + p.rating_diff_team_from_entity_coef *
                (team_rating.elim 0 fun t => t - player_rating)
            + p.team_rating_diff_coef *
                (team_rating.elim 0 fun t => t - opponent_team_rating))))
    ∧ 1 - p.max_predict_value
        ≤ p.predict_performance player_rating opponent_team_rating team_rating
    ∧ p.predict_performance player_rating opponent_team_rating team_rating
        ≤ p.max_predict_value
    ∧ 0 ≤ p.predict_performance player_rating opponent_team_rating team_rating
    ∧ p.predict_performance player_rating opponent_team_rating team_rating ≤ 1 := by
  have hval : ∀ v : ℝ, Real.exp v / (1 + Real.exp v) = sigmoid v := fun v => rfl
  have heq : p.predict_performance player_rating opponent_team_rating team_rating
      = min p.max_predict_value (max (1 - p.max_predict_value)
          (sigmoid (p.rating_diff_coef * (player_rating - opponent_team_rating)
            + p.rating_diff_team_from_entity_coef *
                (team_rating.elim 0 fun t => t - player_rating)
            + p.team_rating_diff_coef *
                (team_rating.elim 0 fun t => t - opponent_team_rating)))) := by
    unfold RatingDifferencePerformancePredictor.predict_performance
    cases team_rating with
    | none =>
        simp only [Option.elim]
        rw [hval, clamp_if_eq_min_max _ _ h1]
        ring_nf
    | some t =>
        simp only [Option.elim]
        rw [hval, clamp_if_eq_min_max _ _ h1]
        ring_nf
  refine ⟨heq, ?_, ?_, ?_, ?_⟩ <;> rw [heq]
  · exact le_min (by linarith) (le_max_left _ _)
  · exact min_le_left _ _
  · calc (0:ℝ) ≤ 1 - p.max_predict_value := by linarith
      _ ≤ _ := le_min (by linarith) (le_max_left _ _)
  · calc min p.max_predict_value _ ≤ p.max_predict_value := min_le_left _ _
      _ ≤ 1 := h2

/-- Witness for `ratingDifference_predict_spec` at the default coefficients,
`max_predict_value = 1`, equal ratings and no team rating. -/
theorem ratingDifference_predict_witness :
    (1:ℝ)/2 ≤ 1 ∧ (1:ℝ) ≤ 1
    ∧ 0 ≤ (RatingDifferencePerformancePredictor.predict_performance
        ⟨0.005757, 0, 0, 1⟩ 1000 1000 none)
    ∧ (RatingDifferencePerformancePredictor.predict_performance
        ⟨0.005757, 0, 0, 1⟩ 1000 1000 none) ≤ 1 := by
  have h := ratingDifference_predict_spec ⟨0.005757, 0, 0, 1⟩ 1000 1000 none
    (by norm_num) (by norm_num)
  exact ⟨by norm_num, by norm_num, h.2.2.2.1, h.2.2.2.2⟩

/-- Embeds `RatingMeanPerformancePredictor`: three constructor parameters and
the three mutable running-mean accumulators `sum_ratings`, `sum_rating`,
`rating_count`. -/
structure RatingMeanPerformancePredictor where
  coef : ℝ
  max_predict_value : ℝ
  last_sample_count : ℕ
  sum_ratings : List ℝ
  sum_rating : ℝ
  rating_count : ℕ

/-- Embeds `RatingMeanPerformancePredictor.predict_performance`, returning the
prediction together with the mutated predictor (Python mutates `self`).  The
`sum_ratings[start_index:]` truncation is `List.drop`; `average_rating` is the
running total `sum_rating / rating_count` (the commented-out recomputation
from the `sum_ratings` list is dead code in the source). -/
noncomputable def RatingMeanPerformancePredictor.predict_performance
    (p : RatingMeanPerformancePredictor)
    (player_rating opponent_team_rating : ℝ) :
    ℝ × RatingMeanPerformancePredictor :=
  let sum_ratings := p.sum_ratings ++ [player_rating]
  let rating_count := p.rating_count + 1
  let sum_rating := p.sum_rating + player_rating
  let start_index := sum_ratings.length - p.last_sample_count
  let sum_ratings := sum_ratings.drop start_index
  let average_rating := sum_rating / (rating_count : ℝ)
  let mean_rating := player_rating * 0.5 + opponent_team_rating * 0.5 - average_rating
  let value := p.coef * mean_rating
  let prediction := Real.exp value / (1 + Real.exp value)
  let result :=
    if prediction > p.max_predict_value then p.max_predict_value
    else if prediction < 1 - p.max_predict_value then 1 - p.max_predict_value
    else prediction
  (result,
   { p with sum_ratings := sum_ratings, sum_rating := sum_rating,
            rating_count := rating_count })

/-- Closed form of the `RatingMeanPerformancePredictor` prediction: the
sigmoid of `coef` times the deviation of the midpoint of the player's and the
opponent team's ratings from the updated running mean, clamped. -/
theorem ratingMean_predict_closed_form (p : RatingMeanPerformancePredictor)
    (player_rating opponent_team_rating : ℝ)
    (hM : 1/2 ≤ p.max_predict_value) :
    (p.predict_performance player_rating opponent_team_rating).1
      = min p.max_predict_value (max (1 - p.max_predict_value)
          (sigmoid (p.coef * ((player_rating + opponent_team_rating) / 2
            - (p.sum_rating + player_rating) / ((p.rating_count : ℝ) + 1))))) := by
  have hcast : ((p.rating_count + 1 : ℕ) : ℝ) = (p.rating_count : ℝ) + 1 := by
    push_cast; ring
  have harg : p.coef * (player_rating * 0.5 + opponent_team_rating * 0.5
        - (p.sum_rating + player_rating) / ((p.rating_count : ℝ) + 1))
      = p.coef * ((player_rating + opponent_team_rating) / 2
        - (p.sum_rating + player_rating) / ((p.rating_count : ℝ) + 1)) := by
    ring
  unfold RatingMeanPerformancePredictor.predict_performance
  simp only [hcast]
  rw [show (Real.exp (p.coef * (player_rating * 0.5 + opponent_team_rating * 0.5
      - (p.sum_rating + player_rating) / ((p.rating_count : ℝ) + 1))) /
        (1 + Real.exp (p.coef * (player_rating * 0.5 + opponent_team_rating * 0.5
      - (p.sum_rating + player_rating) / ((p.rating_count : ℝ) + 1)))))
      = sigmoid (p.coef * ((player_rating + opponent_team_rating) / 2
          - (p.sum_rating + player_rating) / ((p.rating_count : ℝ) + 1))) from by
    rw [← harg]; rfl]
  exact clamp_if_eq_min_max _ _ hM

/-- C4 counterexample: a fresh `RatingMeanPerformancePredictor` with
`coef = 1`, `max_predict_value = 1`, player rating `0` and opponent team
rating `2` does not return the sigmoid of the player's deviation from the
running mean (which is `sigmoid (1 · (0 − 0)) = 1/2`, clamped): the code uses
the midpoint of the player's and opponent's ratings, giving `sigmoid 1`. -/
theorem ratingMean_player_deviation_counterexample :
    ((⟨1, 1, 1500, [], 0, 0⟩ : RatingMeanPerformancePredictor).predict_performance
        0 2).1
      ≠ min (1:ℝ) (max (1 - 1)
          (sigmoid (1 * ((0:ℝ) - (0 + 0) / (((0:ℕ) : ℝ) + 1))))) := by
  have hexp : (2:ℝ) < Real.exp 1 := by
    have := Real.add_one_lt_exp (by norm_num : (1:ℝ) ≠ 0)
    linarith
  have hL : ((⟨1, 1, 1500, [], 0, 0⟩ :
      RatingMeanPerformancePredictor).predict_performance 0 2).1 = sigmoid 1 := by
    rw [ratingMean_predict_closed_form ⟨1, 1, 1500, [], 0, 0⟩ 0 2 (by norm_num)]
    norm_num
    rw [max_eq_right (le_of_lt (sigmoid_pos 1)),
      min_eq_right (le_of_lt (sigmoid_lt_one 1))]
  have hR : min (1:ℝ) (max (1 - 1)
      (sigmoid (1 * ((0:ℝ) - (0 + 0) / (((0:ℕ) : ℝ) + 1))))) = 1/2 := by
    norm_num
    rw [show sigmoid 0 = 1/2 from by rw [sigmoid, Real.exp_zero]; norm_num]
    norm_num
  rw [hL, hR]
  intro h
  rw [sigmoid] at h
  have hpos : (0:ℝ) < 1 + Real.exp 1 := by positivity
  field_simp at h
  linarith

/-- C4 (amended): each `RatingMeanPerformancePredictor.predict_performance`
call maintains the running global mean incrementally — the updated
accumulators satisfy `sum_rating' = sum_rating + player`,
`rating_count' = rating_count + 1` and the truncation recurrence for
`sum_ratings` — and predicts off the deviation of the *midpoint of the
player's and opponent team's ratings* from that running mean
(`sum_rating' / rating_count'`), sigmoid-transformed and clamped to
`[1 − max_predict_value, max_predict_value]`; no predictor state other than
the three running-mean accumulators is mutated. -/
theorem ratingMean_predict_spec (p : RatingMeanPerformancePredictor)
    (player_rating opponent_team_rating : ℝ)
    (hM : 1/2 ≤ p.max_predict_value) :
    (p.predict_performance player_rating opponent_team_rating).1
      = min p.max_predict_value (max (1 - p.max_predict_value)
          (sigmoid (p.coef * ((player_rating + opponent_team_rating) / 2
            - (p.sum_rating + player_rating) / ((p.rating_count : ℝ) + 1)))))
    ∧ (p.predict_performance player_rating opponent_team_rating).2.sum_rating
        = p.sum_rating + player_rating
    ∧ (p.predict_performance player_rating opponent_team_rating).2.rating_count
        = p.rating_count + 1
    ∧ (p.predict_performance player_rating opponent_team_rating).2.sum_ratings
        = (p.sum_ratings ++ [player_rating]).drop
            ((p.sum_ratings.length + 1) - p.last_sample_count)
    ∧ (p.predict_performance player_rating opponent_team_rating).2.coef = p.coef
    ∧ (p.predict_performance player_rating opponent_team_rating).2.max_predict_value
        = p.max_predict_value
    ∧ (p.predict_performance player_rating opponent_team_rating).2.last_sample_count
        = p.last_sample_count := by
  refine ⟨ratingMean_predict_closed_form p player_rating opponent_team_rating hM,
    rfl, rfl, ?_, rfl, rfl, rfl⟩
  unfold RatingMeanPerformancePredictor.predict_performance
  simp [List.length_append]

/-- Witness for `ratingMean_predict_spec` on a fresh predictor. -/
theorem ratingMean_predict_witness :
    (1:ℝ)/2 ≤ 1
    ∧ ((⟨1, 1, 1500, [], 0, 0⟩ :
        RatingMeanPerformancePredictor).predict_performance 0 0).2.rating_count
      = 0 + 1 :=
  ⟨by norm_num,
    (ratingMean_predict_spec ⟨1, 1, 1500, [], 0, 0⟩ 0 0 (by norm_num)).2.2.1⟩

/-! ## pipeline.py `__init__` duplicate-feature check (claim C8) -/

/-- The interface of a composed rating generator as read by
`Pipeline.__init__` (`pipeline.py` lines 95–107): its class name and its
`known_features_return` / `known_features_out` feature-name lists. -/
structure RatingGeneratorSpec where
  className : String
  known_features_return : List String
  known_features_out : List String
deriving Repr, DecidableEq

/-- Embeds the duplicate-feature loop of `Pipeline.__init__`: for each rating
generator `r` in order, if `set(r.known_features_return + est_feats)` is
smaller than the list (`List.dedup` embeds `set`), raise `ValueError` carrying
the class name and `set(x).intersection(x)` — which is just `set(x)`, i.e.
`x.dedup`; otherwise accumulate `r.known_features_out` into `est_feats`. -/
def checkRatingFeatures :
    List RatingGeneratorSpec → List String →
      Except (String × List String) (List String)
  | [], est_feats => .ok est_feats
  | r :: rest, est_feats =>
    let combined := r.known_features_return ++ est_feats
    if combined.dedup.length = combined.length
    then checkRatingFeatures rest (est_feats ++ r.known_features_out)
    else .error (r.className, combined.dedup)

/-- All feature names declared by a list of rating generators. -/
def allFeatures : List RatingGeneratorSpec → List String
  | [] => []
  | r :: rest => r.known_features_return ++ r.known_features_out ++ allFeatures rest

/-- The concatenated `known_features_out` of a list of rating generators —
the `est_feats` accumulator of `Pipeline.__init__`. -/
def outFeatures : List RatingGeneratorSpec → List String
  | [] => []
  | r :: rest => r.known_features_out ++ outFeatures rest

theorem checkRatingFeatures_ok_of_nodup (gens : List RatingGeneratorSpec) :
    ∀ est : List String, (est ++ allFeatures gens).Nodup →
      checkRatingFeatures gens est = .ok (est ++ outFeatures gens) := by
  induction gens with
  | nil => intro est h; simp [checkRatingFeatures, outFeatures]
  | cons r rest ih =>
    intro est h
    rw [allFeatures] at h
    have h' : ((est ++ r.known_features_return) ++
        (r.known_features_out ++ allFeatures rest)).Nodup := by
      simpa [List.append_assoc] using h
    have hcomb : (r.known_features_return ++ est).Nodup :=
      (List.perm_append_comm).nodup_iff.mpr h'.of_append_left
    have hrest : ((est ++ r.known_features_out) ++ allFeatures rest).Nodup := by
      have hsub : ((est ++ r.known_features_out) ++ allFeatures rest).Sublist
          ((est ++ r.known_features_return) ++
            (r.known_features_out ++ allFeatures rest)) := by
        rw [List.append_assoc, List.append_assoc]
        exact List.Sublist.append_left (List.sublist_append_right _ _) est
      exact h'.sublist hsub
    have hcond : (r.known_features_return ++ est).dedup.length
        = (r.known_features_return ++ est).length := by
      rw [List.dedup_eq_self.mpr hcomb]
    simp only [checkRatingFeatures]
    rw [if_pos hcond, ih _ hrest, outFeatures]
    rw [List.append_assoc]

theorem checkRatingFeatures_error_cases (gens : List RatingGeneratorSpec) :
    ∀ (est : List String) (cls : String) (feats : List String),
      checkRatingFeatures gens est = .error (cls, feats) →
      ∃ pre r post, gens = pre ++ r :: post ∧ cls = r.className
        ∧ feats = (r.known_features_return ++ (est ++ outFeatures pre)).dedup
        ∧ ¬ (r.known_features_return ++ (est ++ outFeatures pre)).Nodup := by
  induction gens with
  | nil => intro est cls feats h; simp [checkRatingFeatures] at h
  | cons r rest ih =>
    intro est cls feats h
    simp only [checkRatingFeatures] at h
    by_cases hcond : (r.known_features_return ++ est).dedup.length
        = (r.known_features_return ++ est).length
    · rw [if_pos hcond] at h
      obtain ⟨pre, r', post, hg, hc, hf, hn⟩ :=
        ih (est ++ r.known_features_out) cls feats h
      refine ⟨r :: pre, r', post, by rw [hg, List.cons_append], hc, ?_, ?_⟩
      · rw [hf]; simp [outFeatures, List.append_assoc]
      · simpa [outFeatures, List.append_assoc] using hn
    · rw [if_neg hcond] at h
      injection h with h'
      refine ⟨[], r, rest, rfl, ?_, ?_, ?_⟩
      · exact (congrArg Prod.fst h').symm
      · rw [outFeatures, List.append_nil]
        exact (congrArg Prod.snd h').symm
      · rw [outFeatures, List.append_nil]
        intro hnd
        exact hcond (by rw [List.dedup_eq_self.mpr hnd])

theorem checkRatingFeatures_ok_nodup_steps (gens : List RatingGeneratorSpec) :
    ∀ (est out : List String), checkRatingFeatures gens est = .ok out →
      ∀ (pre : List RatingGeneratorSpec) (r : RatingGeneratorSpec)
        (post : List RatingGeneratorSpec), gens = pre ++ r :: post →
        (r.known_features_return ++ (est ++ outFeatures pre)).Nodup := by
  induction gens with
  | nil =>
    intro est out h pre r post hg
    exact absurd hg (by simp)
  | cons g rest ih =>
    intro est out h pre r post hg
    simp only [checkRatingFeatures] at h
    by_cases hcond : (g.known_features_return ++ est).dedup.length
        = (g.known_features_return ++ est).length
    · rw [if_pos hcond] at h
      have hnodup : (g.known_features_return ++ est).Nodup := by
        have hd := (List.dedup_sublist (g.known_features_return ++ est)).eq_of_length hcond
        rw [← hd]
        exact List.nodup_dedup _
      cases pre with
      | nil =>
        rw [List.nil_append] at hg
        have hr : g = r := (List.cons.inj hg).1
        subst hr
        simpa [outFeatures] using hnodup
      | cons g2 pre2 =>
        rw [List.cons_append] at hg
        have hg1 : g = g2 := (List.cons.inj hg).1
        have hg2 : rest = pre2 ++ r :: post := (List.cons.inj hg).2
        have hstep := ih (est ++ g.known_features_out) out h pre2 r post hg2
        subst hg1
        simpa [outFeatures, List.append_assoc] using hstep
    · rw [if_neg hcond] at h
      exact Except.noConfusion h

/-- C8 counterexample: with a first generator producing feature `a` and a
second producing `a` and `b`, `Pipeline.__init__` raises — but the
`duplicated_feats` it reports is `set(x).intersection(x) = set(x)`, the
*whole* feature set `{a, b}`, naming `b` even though `b` is produced by only
one rating generator (it occurs once across all `known_features_return`). -/
theorem pipeline_duplicate_features_report_counterexample :
    checkRatingFeatures
        [⟨"RatingGenerator", ["a"], ["a"]⟩,
         ⟨"OtherRatingGenerator", ["a", "b"], ["a", "b"]⟩] []
      = .error ("OtherRatingGenerator", ["b", "a"])
    ∧ ((["a"] : List String) ++ ["a", "b"]).count "b" = 1
    ∧ "b" ∈ (["b", "a"] : List String) :=
  ⟨rfl, by decide, by decide⟩

/-- C8 (amended): `Pipeline.__init__` raises `ValueError` iff some rating
generator's `known_features_return`, together with the accumulated
`known_features_out` of the generators before it, contains a duplicate name
— every such duplicate configuration raises (fail fast), and every raise
comes from such a duplicate; the error names that generator's class and the
deduplicated list of *all* those feature names (not only the duplicated
ones).  With pairwise-distinct feature names across all composed rating
generators, this check never raises. -/
theorem pipeline_duplicate_feature_check (gens : List RatingGeneratorSpec) :
    ((allFeatures gens).Nodup →
      checkRatingFeatures gens [] = .ok (outFeatures gens))
    ∧ (∀ cls feats, checkRatingFeatures gens [] = .error (cls, feats) →
        ∃ pre r post, gens = pre ++ r :: post ∧ cls = r.className
          ∧ feats = (r.known_features_return ++ outFeatures pre).dedup
          ∧ ¬ (r.known_features_return ++ outFeatures pre).Nodup)
    ∧ (∀ (pre : List RatingGeneratorSpec) (r : RatingGeneratorSpec)
        (post : List RatingGeneratorSpec),
        gens = pre ++ r :: post →
        ¬ (r.known_features_return ++ outFeatures pre).Nodup →
        ∃ cls feats, checkRatingFeatures gens [] = .error (cls, feats)) := by
  refine ⟨?_, ?_, ?_⟩
  · intro h
    simpa using checkRatingFeatures_ok_of_nodup gens [] (by simpa using h)
  · intro cls feats h
    obtain ⟨pre, r, post, hg, hc, hf, hn⟩ :=
      checkRatingFeatures_error_cases gens [] cls feats h
    exact ⟨pre, r, post, hg, hc, by simpa using hf, by simpa using hn⟩
  · intro pre r post hg hdup
    cases hres : checkRatingFeatures gens [] with
    | error e =>
      obtain ⟨cls, feats⟩ := e
      exact ⟨cls, feats, rfl⟩
    | ok out =>
      exfalso
      have hnodup := checkRatingFeatures_ok_nodup_steps gens [] out hres pre r post hg
      rw [List.nil_append] at hnodup
      exact hdup hnodup

/-- Witness for `pipeline_duplicate_feature_check`: two generators with
pairwise-distinct feature names pass the check, and a configuration in which
the second generator repeats the first one's feature `a` raises. -/
theorem pipeline_duplicate_feature_check_witness :
    ((allFeatures [⟨"RG1", ["a"], ["a2"]⟩, ⟨"RG2", ["b", "c"], ["b2"]⟩]).Nodup
      ∧ checkRatingFeatures
          [⟨"RG1", ["a"], ["a2"]⟩, ⟨"RG2", ["b", "c"], ["b2"]⟩] []
        = .ok (outFeatures [⟨"RG1", ["a"], ["a2"]⟩, ⟨"RG2", ["b", "c"], ["b2"]⟩]))
    ∧ (([⟨"RG1", ["a"], ["a"]⟩, ⟨"RG2", ["a", "b"], ["a", "b"]⟩] :
          List RatingGeneratorSpec)
        = [⟨"RG1", ["a"], ["a"]⟩] ++ ⟨"RG2", ["a", "b"], ["a", "b"]⟩ :: []
      ∧ ¬ ((⟨"RG2", ["a", "b"], ["a", "b"]⟩ : RatingGeneratorSpec).known_features_return
          ++ outFeatures [⟨"RG1", ["a"], ["a"]⟩]).Nodup
      ∧ ∃ cls feats,
          checkRatingFeatures
            [⟨"RG1", ["a"], ["a"]⟩, ⟨"RG2", ["a", "b"], ["a", "b"]⟩] []
          = .error (cls, feats)) :=
  ⟨⟨by decide,
    (pipeline_duplicate_feature_check
      [⟨"RG1", ["a"], ["a2"]⟩, ⟨"RG2", ["b", "c"], ["b2"]⟩]).1 (by decide)⟩,
   rfl, by decide,
    (pipeline_duplicate_feature_check
      [⟨"RG1", ["a"], ["a"]⟩, ⟨"RG2", ["a", "b"], ["a", "b"]⟩]).2.2
      [⟨"RG1", ["a"], ["a"]⟩] ⟨"RG2", ["a", "b"], ["a", "b"]⟩ [] rfl (by decide)⟩

/-! ## Column weighting and `PerformancesGenerator.generate` (claims C6, C9)

A pandas cell is `Option ℚ` (`none` embeds NaN; NaN arithmetic propagates),
a row is an association list from column names to cells; a column absent from
a row behaves as an all-NaN column. -/

/-- A dataframe cell: `none` embeds a pandas missing value (NaN). -/
abbrev Cell := Option ℚ

/-- A dataframe row: column name ↦ cell. -/
abbrev Row := List (String × Cell)

/-- Lookup of a key in an association list (first match). -/
def findKV {α : Type} : List (String × α) → String → Option α
  | [], _ => none
  | kv :: rest, c => if kv.1 == c then some kv.2 else findKV rest c

/-- Column assignment, as pandas does it: overwrite the column in place when
it exists, append it at the end otherwise. -/
def setVal {α : Type} (l : List (String × α)) (c : String) (v : α) :
    List (String × α) :=
  if l.any fun kv => kv.1 == c
  then l.map fun kv => if kv.1 == c then (c, v) else kv
  else l ++ [(c, v)]

/-- Reading column `c` of a row; an absent column reads as NaN. -/
def getCol (row : Row) (c : String) : Cell := (findKV row c).getD none

theorem findKV_overwrite_self {α : Type} (l : List (String × α)) (c : String) (v : α) :
    findKV (l.map fun kv => if kv.1 == c then (c, v) else kv) c
      = (findKV l c).map fun _ => v := by
  induction l with
  | nil => rfl
  | cons a as ih =>
    by_cases ha : (a.1 == c) = true
    · simp [findKV, ha]
    · simp only [List.map_cons, if_neg ha, findKV, ih]

theorem findKV_overwrite_ne {α : Type} (l : List (String × α)) (c c' : String) (v : α)
    (h : c' ≠ c) :
    findKV (l.map fun kv => if kv.1 == c then (c, v) else kv) c'
      = findKV l c' := by
  induction l with
  | nil => rfl
  | cons a as ih =>
    by_cases ha : (a.1 == c) = true
    · have hac : a.1 = c := by simpa using ha
      have hcc : ¬ (c == c') = true := by simpa using fun hx => h hx.symm
      simp only [List.map_cons, if_pos ha, findKV, if_neg hcc, ih]
      rw [if_neg (by simpa [hac] using hcc)]
    · simp only [List.map_cons, if_neg ha, findKV, ih]

theorem findKV_append_single {α : Type} (l : List (String × α)) (c c' : String) (v : α) :
    findKV (l ++ [(c, v)]) c'
      = ((findKV l c').orElse fun _ => if c == c' then some v else none) := by
  induction l with
  | nil => simp [findKV]
  | cons a as ih =>
    by_cases ha : (a.1 == c') = true
    · simp [findKV, ha]
    · simp only [List.cons_append, findKV, if_neg ha]
      rw [show as.append [(c, v)] = as ++ [(c, v)] from rfl, ih]

theorem findKV_not_mem {α : Type} (l : List (String × α)) (c : String)
    (h : ¬ (l.any fun kv => kv.1 == c) = true) : findKV l c = none := by
  induction l with
  | nil => rfl
  | cons a as ih =>
    have ha : ¬ (a.1 == c) = true := fun hx => h (by simp [hx])
    rw [findKV, if_neg ha]
    exact ih fun hx => h (by simp [List.any_cons, hx])

theorem findKV_setVal_self {α : Type} (l : List (String × α)) (c : String) (v : α) :
    findKV (setVal l c v) c = some v := by
  unfold setVal
  by_cases h : (l.any fun kv => kv.1 == c) = true
  · rw [if_pos h, findKV_overwrite_self]
    rw [List.any_eq_true] at h
    obtain ⟨kv, hmem, hkv⟩ := h
    cases hfind : findKV l c with
    | none =>
      exfalso
      have : findKV l c ≠ none := by
        clear hfind
        induction l with
        | nil => simp at hmem
        | cons a as ih2 =>
          rcases List.mem_cons.mp hmem with h1 | h1
          · subst h1
            rw [findKV, if_pos hkv]
            simp
          · rw [findKV]
            by_cases hb : (a.1 == c) = true
            · rw [if_pos hb]; simp
            · rw [if_neg hb]; exact ih2 h1
      exact this hfind
    | some x => rfl
  · rw [if_neg h, findKV_append_single, findKV_not_mem l c h]
    simp

theorem findKV_setVal_ne {α : Type} (l : List (String × α)) (c c' : String) (v : α)
    (h : c' ≠ c) :
    findKV (setVal l c v) c' = findKV l c' := by
  unfold setVal
  by_cases hany : (l.any fun kv => kv.1 == c) = true
  · rw [if_pos hany, findKV_overwrite_ne _ _ _ _ h]
  · rw [if_neg hany, findKV_append_single,
      if_neg (by simpa using fun hx => h hx.symm : ¬ (c == c') = true)]
    cases findKV l c' <;> rfl

theorem getCol_setVal_self (row : Row) (c : String) (v : Cell) :
    getCol (setVal row c v) c = v := by
  rw [getCol, findKV_setVal_self]
  rfl

theorem getCol_setVal_ne (row : Row) (c c' : String) (v : Cell) (h : c' ≠ c) :
    getCol (setVal row c v) c' = getCol row c' := by
  rw [getCol, findKV_setVal_ne _ _ _ _ h, getCol]

/-- NaN-propagating cell multiplication (IEEE: `0 * NaN = NaN`). -/
def Cell.mul : Cell → Cell → Cell
  | some a, some b => some (a * b)
  | _, _ => none

/-- NaN-propagating cell addition. -/
def Cell.add : Cell → Cell → Cell
  | some a, some b => some (a + b)
  | _, _ => none

/-- NaN-propagating `1 - x` for `lower_is_better` columns. -/
def Cell.oneSub : Cell → Cell
  | some a => some (1 - a)
  | none => none

/-- Embeds the first loop of `PerformancesGenerator._weight_columns` /
`ColumnsWeighter.fit_transform`, per row: for each column weight in order,
create the `weight__<name>` column holding the weight, set it to `0` where
the value column is NaN, and set the NaN value cells to `0`.  The
`sum_cols_weights` column is omitted: its only use in the source is a
division whose result is discarded (`df[weight__c] / df[sum_cols_weights]`
is not assigned to anything), so it does not affect the output. -/
def weightPass : List ColumnWeight → Row → List (String × ℚ) → Row × List (String × ℚ)
  | [], row, wcols => (row, wcols)
  | cw :: rest, row, wcols =>
    weightPass rest
      (if getCol row cw.name = none then setVal row cw.name (some 0) else row)
      (setVal wcols cw.name (if getCol row cw.name = none then 0 else cw.weight))

/-- The column read by the final loop: `column_weighs_mapping[name]` in
`_weight_columns` when pre-transformations are configured, the weight's own
column otherwise (the only case in `ColumnsWeighter.fit_transform`). -/
def featureNameOf (mapping : Option (String → String)) (c : String) : String :=
  match mapping with
  | some f => f c
  | none => c

/-- Embeds the final loop: accumulate
`weight__<name> * value` (or `weight__<name> * (1 - value)` when
`lower_is_better`) over the column weights, starting from `0`. -/
def weightedSum (cws : List ColumnWeight) (mapping : Option (String → String))
    (row : Row) (wcols : List (String × ℚ)) : Cell :=
  cws.foldl (fun acc cw =>
    Cell.add acc (Cell.mul (some ((findKV wcols cw.name).getD 0))
      (if cw.lower_is_better then Cell.oneSub (getCol row (featureNameOf mapping cw.name))
       else getCol row (featureNameOf mapping cw.name)))) (some 0)

/-- The per-row performance value computed by
`PerformancesGenerator._weight_columns` (and, with `mapping = none`, by
`ColumnsWeighter.fit_transform`). -/
def weightColumnsCell (cws : List ColumnWeight) (mapping : Option (String → String))
    (row : Row) : Cell :=
  let st := weightPass cws row []
  weightedSum cws mapping st.1 st.2

theorem weightPass_row_stable (cws : List ColumnWeight) :
    ∀ (row : Row) (w : List (String × ℚ)) (c : String),
      c ∉ cws.map (fun cw => cw.name) →
      getCol (weightPass cws row w).1 c = getCol row c := by
  induction cws with
  | nil => intro row w c _; rfl
  | cons c0 rest ih =>
    intro row w c hc
    rw [List.map_cons, List.mem_cons] at hc
    push_neg at hc
    rw [weightPass, ih _ _ _ hc.2]
    by_cases hna : getCol row c0.name = none
    · rw [if_pos hna, getCol_setVal_ne _ _ _ _ hc.1]
    · rw [if_neg hna]

theorem weightPass_wcols_stable (cws : List ColumnWeight) :
    ∀ (row : Row) (w : List (String × ℚ)) (c : String),
      c ∉ cws.map (fun cw => cw.name) →
      findKV (weightPass cws row w).2 c = findKV w c := by
  induction cws with
  | nil => intro row w c _; rfl
  | cons c0 rest ih =>
    intro row w c hc
    rw [List.map_cons, List.mem_cons] at hc
    push_neg at hc
    rw [weightPass, ih _ _ _ hc.2, findKV_setVal_ne _ _ _ _ hc.1]

theorem weightPass_state (cws : List ColumnWeight) :
    ∀ (row : Row) (w : List (String × ℚ)),
      (cws.map (fun cw => cw.name)).Nodup →
      ∀ cw ∈ cws,
        findKV (weightPass cws row w).2 cw.name
            = some (if getCol row cw.name = none then 0 else cw.weight)
          ∧ getCol (weightPass cws row w).1 cw.name
            = some ((getCol row cw.name).getD 0) := by
  induction cws with
  | nil => intro row w _ cw hcw; simp at hcw
  | cons c0 rest ih =>
    intro row w h cw hcw
    rw [List.map_cons, List.nodup_cons] at h
    obtain ⟨hnotin, hnodup⟩ := h
    rw [weightPass]
    rcases List.mem_cons.mp hcw with h1 | h1
    · subst h1
      constructor
      · rw [weightPass_wcols_stable rest _ _ _ hnotin, findKV_setVal_self]
      · rw [weightPass_row_stable rest _ _ _ hnotin]
        by_cases hna : getCol row cw.name = none
        · rw [if_pos hna, getCol_setVal_self, hna]
          rfl
        · rw [if_neg hna]
          cases hgc : getCol row cw.name with
          | none => exact absurd hgc hna
          | some q => rfl
    · have hne : cw.name ≠ c0.name := by
        intro hx
        exact hnotin (hx ▸ List.mem_map.mpr ⟨cw, h1, rfl⟩)
      have hrw : getCol (if getCol row c0.name = none
            then setVal row c0.name (some 0) else row) cw.name
          = getCol row cw.name := by
        by_cases hna : getCol row c0.name = none
        · rw [if_pos hna, getCol_setVal_ne _ _ _ _ hne]
        · rw [if_neg hna]
      have hres := ih
        (if getCol row c0.name = none then setVal row c0.name (some 0) else row)
        (setVal w c0.name (if getCol row c0.name = none then 0 else c0.weight))
        hnodup cw h1
      rw [hrw] at hres
      exact hres

theorem weightedSum_foldl (cws : List ColumnWeight)
    (mapping : Option (String → String)) (aw bv : ColumnWeight → ℚ) :
    ∀ (row : Row) (w : List (String × ℚ)) (init : ℚ),
      (∀ cw ∈ cws, findKV w cw.name = some (aw cw)
          ∧ getCol row (featureNameOf mapping cw.name) = some (bv cw)) →
      cws.foldl (fun acc cw =>
        Cell.add acc (Cell.mul (some ((findKV w cw.name).getD 0))
          (if cw.lower_is_better then Cell.oneSub (getCol row (featureNameOf mapping cw.name))
           else getCol row (featureNameOf mapping cw.name)))) (some init)
        = some (init + (cws.map fun cw =>
            aw cw * (if cw.lower_is_better then 1 - bv cw else bv cw)).sum) := by
  induction cws with
  | nil => intro row w init _; simp
  | cons c0 rest ih =>
    intro row w init h
    obtain ⟨hw, hv⟩ := h c0 (List.mem_cons_self _ _)
    have hstep : Cell.add (some init) (Cell.mul (some ((findKV w c0.name).getD 0))
        (if c0.lower_is_better then Cell.oneSub (getCol row (featureNameOf mapping c0.name))
         else getCol row (featureNameOf mapping c0.name)))
        = some (init + aw c0 * (if c0.lower_is_better then 1 - bv c0 else bv c0)) := by
      by_cases hl : c0.lower_is_better <;>
        simp [hl, hw, hv, Cell.add, Cell.mul, Cell.oneSub]
    rw [List.foldl_cons, hstep]
    rw [ih row w _ fun cw hcw => h cw (List.mem_cons_of_mem _ hcw)]
    rw [List.map_cons, List.sum_cons]
    congr 1
    ring

/-- C9: for every input row, the performance value produced by column
weighting (distinctly named configured columns) is the plain sum over the
column weights of `weight · value` (`weight · (1 − value)` when
`lower_is_better`), a column missing (NaN) in that row contributing weight 0
and value 0; and the sum is *not* divided by the total of the weights — at a
concrete input the result differs from the weight-renormalized sum, so the
weights are not renormalized when they do not sum to 1. -/
theorem weight_columns_formula :
    (∀ (cws : List ColumnWeight) (row : Row),
      (cws.map fun cw => cw.name).Nodup →
      weightColumnsCell cws none row
        = some ((cws.map fun cw =>
            (if getCol row cw.name = none then 0 else cw.weight) *
              (if cw.lower_is_better then 1 - (getCol row cw.name).getD 0
               else (getCol row cw.name).getD 0)).sum))
    ∧ weightColumnsCell [⟨"kills", 1/2, false⟩] none [("kills", some 1)]
        ≠ some ((([⟨"kills", 1/2, false⟩] : List ColumnWeight).map fun cw =>
              (if getCol [("kills", some 1)] cw.name = none then 0 else cw.weight) *
                (if cw.lower_is_better then 1 - (getCol [("kills", some 1)] cw.name).getD 0
                 else (getCol [("kills", some 1)] cw.name).getD 0)).sum /
            (([⟨"kills", 1/2, false⟩] : List ColumnWeight).map fun cw =>
              if getCol [("kills", some 1)] cw.name = none then 0 else cw.weight).sum) := by
  constructor
  · intro cws row h
    have hstate := weightPass_state cws row [] h
    unfold weightColumnsCell weightedSum
    rw [weightedSum_foldl cws none
      (fun cw => if getCol row cw.name = none then 0 else cw.weight)
      (fun cw => (getCol row cw.name).getD 0)
      (weightPass cws row []).1 (weightPass cws row []).2 0
      (fun cw hcw => (hstate cw hcw).imp id fun hx => hx)]
    rw [zero_add]
  · simp [weightColumnsCell, weightPass, weightedSum, featureNameOf, getCol,
      findKV, setVal, Cell.add, Cell.mul, Cell.oneSub]

/-- Witness for `weight_columns_formula`: two distinctly named columns, the
second (`lower_is_better`) missing in the row. -/
theorem weight_columns_formula_witness :
    ((([⟨"kills", 1, false⟩, ⟨"deaths", 1, true⟩] : List ColumnWeight)).map
        fun cw => cw.name).Nodup
    ∧ weightColumnsCell [⟨"kills", 1, false⟩, ⟨"deaths", 1, true⟩] none
        [("kills", some 2), ("deaths", none)]
      = some ((([⟨"kills", 1, false⟩, ⟨"deaths", 1, true⟩] : List ColumnWeight).map
          fun cw =>
            (if getCol [("kills", some 2), ("deaths", none)] cw.name = none
              then 0 else cw.weight) *
              (if cw.lower_is_better
               then 1 - (getCol [("kills", some 2), ("deaths", none)] cw.name).getD 0
               else (getCol [("kills", some 2), ("deaths", none)] cw.name).getD 0)).sum) :=
  ⟨by decide, weight_columns_formula.1 _ _ (by decide)⟩

/-- The configuration `PerformancesGenerator.generate` runs with, for one
configured `ColumnNames`: the performance column name, the column weights,
the `column_weighs_mapping` induced by the last pre-transformation's
`features_out` (absent when there are no pre-transformations), and the
pre-transformations as dataframe functions. -/
structure PerformancesGeneratorConfig where
  performance : String
  column_weights : List ColumnWeight
  mapping : Option (String → String)
  pre_transformations : List (List Row → List Row)

/-- The `fit_transform` fold of the configured pre-transformations at the top
of `PerformancesGenerator.generate`. -/
def preTransform (cfg : PerformancesGeneratorConfig) (df : List Row) : List Row :=
  cfg.pre_transformations.foldl (fun d t => t d) df

/-- Embeds `PerformancesGenerator.generate`: apply the pre-transformations,
assign the row-wise weighted performance column (`_weight_columns` makes its
own copy of the dataframe, so only the assigned column changes), then raise
`ValueError` if the assigned column contains any null. -/
def PerformancesGenerator.generate (cfg : PerformancesGeneratorConfig)
    (df : List Row) : Except String (List Row) :=
  let tdf := preTransform cfg df
  let out := tdf.map fun r =>
    setVal r cfg.performance (weightColumnsCell cfg.column_weights cfg.mapping r)
  if out.any fun r => (getCol r cfg.performance).isNone
  then .error "performance contains nan values"
  else .ok out

/-- C6: `PerformancesGenerator.generate` raises `ValueError` exactly when the
computed performance column contains a null value; otherwise it returns the
(pre-transformed) input dataframe with the configured performance column
assigned — same number of rows, no row silently dropped, every other column
of every row unchanged, and the performance column entirely non-null.  With
no pre-transformations the returned rows are exactly the input rows with the
performance column added. -/
theorem performances_generate_spec (cfg : PerformancesGeneratorConfig)
    (df : List Row) :
    ((∃ e, PerformancesGenerator.generate cfg df = .error e) ↔
      ∃ r ∈ preTransform cfg df,
        weightColumnsCell cfg.column_weights cfg.mapping r = none)
    ∧ (∀ out, PerformancesGenerator.generate cfg df = .ok out →
        out = (preTransform cfg df).map (fun r =>
          setVal r cfg.performance
            (weightColumnsCell cfg.column_weights cfg.mapping r))
        ∧ out.length = (preTransform cfg df).length
        ∧ (∀ r ∈ out, (getCol r cfg.performance).isSome)
        ∧ ∀ (i : ℕ) (h1 : i < out.length) (h2 : i < (preTransform cfg df).length)
            (c : String), c ≠ cfg.performance →
            getCol (out.get ⟨i, h1⟩) c
              = getCol ((preTransform cfg df).get ⟨i, h2⟩) c)
    ∧ (cfg.pre_transformations = [] → preTransform cfg df = df) := by
  have hgc : ∀ r : Row,
      getCol (setVal r cfg.performance
        (weightColumnsCell cfg.column_weights cfg.mapping r)) cfg.performance
      = weightColumnsCell cfg.column_weights cfg.mapping r :=
    fun r => getCol_setVal_self _ _ _
  have hany : (((preTransform cfg df).map fun r =>
        setVal r cfg.performance
          (weightColumnsCell cfg.column_weights cfg.mapping r)).any
        fun r => (getCol r cfg.performance).isNone)
      = ((preTransform cfg df).any
          fun r => (weightColumnsCell cfg.column_weights cfg.mapping r).isNone) := by
    rw [List.any_map]
    congr 1
    funext r
    simp [Function.comp, hgc r]
  refine ⟨?_, ?_, ?_⟩
  · constructor
    · rintro ⟨e, he⟩
      rw [PerformancesGenerator.generate] at he
      simp only [hany] at he
      by_cases hc : ((preTransform cfg df).any
          fun r => (weightColumnsCell cfg.column_weights cfg.mapping r).isNone) = true
      · rw [List.any_eq_true] at hc
        obtain ⟨r, hr, hcr⟩ := hc
        exact ⟨r, hr, Option.isNone_iff_eq_none.mp hcr⟩
      · rw [if_neg hc] at he
        exact Except.noConfusion he
    · rintro ⟨r, hr, hcr⟩
      refine ⟨"performance contains nan values", ?_⟩
      rw [PerformancesGenerator.generate]
      simp only [hany]
      rw [if_pos (List.any_eq_true.mpr ⟨r, hr, by rw [hcr]; rfl⟩)]
  · intro out hout
    rw [PerformancesGenerator.generate] at hout
    simp only [hany] at hout
    by_cases hc : ((preTransform cfg df).any
        fun r => (weightColumnsCell cfg.column_weights cfg.mapping r).isNone) = true
    · rw [if_pos hc] at hout
      exact Except.noConfusion hout
    · rw [if_neg hc] at hout
      have hout' : out = (preTransform cfg df).map fun r =>
          setVal r cfg.performance
            (weightColumnsCell cfg.column_weights cfg.mapping r) :=
        (Except.ok.inj hout).symm
      subst hout'
      rw [List.any_eq_true] at hc
      push_neg at hc
      refine ⟨rfl, List.length_map _ _, ?_, ?_⟩
      · intro r hrout
        obtain ⟨s, hs, hsr⟩ := List.mem_map.mp hrout
        rw [← hsr, hgc s]
        have := hc s hs
        cases hcell : weightColumnsCell cfg.column_weights cfg.mapping s with
        | none => exact absurd (by rw [hcell]; rfl) this
        | some q => rfl
      · intro i h1 h2 c hcne
        rw [List.get_map, getCol_setVal_ne _ _ _ _ hcne]
  · intro h
    rw [preTransform, h]
    rfl

/-- Witness for `performances_generate_spec`: a successful run (non-null
column added) and, with a mapping pointing at a missing column, the
`ValueError` branch. -/
theorem performances_generate_witness :
    PerformancesGenerator.generate
        ⟨"performance", [⟨"kills", 1, false⟩], none, []⟩ [[("kills", some 2)]]
      = .ok [[("kills", some 2), ("performance", some 2)]]
    ∧ (∀ r ∈ [[("kills", some 2), ("performance", some 2)]],
        (getCol r "performance").isSome)
    ∧ PerformancesGenerator.generate
        ⟨"performance", [⟨"kills", 1, false⟩], some (fun _ => "missing"), []⟩
        [[("kills", some 2)]]
      = .error "performance contains nan values" := by
  have hok : PerformancesGenerator.generate
      ⟨"performance", [⟨"kills", 1, false⟩], none, []⟩ [[("kills", some 2)]]
      = .ok [[("kills", some 2), ("performance", some 2)]] := by
    simp [PerformancesGenerator.generate, preTransform, weightColumnsCell,
      weightPass, weightedSum, featureNameOf, getCol, findKV, setVal,
      Cell.add, Cell.mul]
  have h := performances_generate_spec
    ⟨"performance", [⟨"kills", 1, false⟩], none, []⟩ [[("kills", some 2)]]
  have h2 := performances_generate_spec
    ⟨"performance", [⟨"kills", 1, false⟩], some (fun _ => "missing"), []⟩
    [[("kills", some 2)]]
  have hcellnone : weightColumnsCell [⟨"kills", 1, false⟩] (some fun _ => "missing")
      [("kills", some 2)] = none := by
    simp [weightColumnsCell, weightPass, weightedSum, featureNameOf, getCol,
      findKV, setVal, Cell.add, Cell.mul]
  obtain ⟨e, herr⟩ := h2.1.mpr ⟨[("kills", some 2)], by simp [preTransform], hcellnone⟩
  have herre : e = "performance contains nan values" := by
    rw [PerformancesGenerator.generate] at herr
    by_cases hc : ((preTransform ⟨"performance", [⟨"kills", 1, false⟩],
          some (fun _ => "missing"), []⟩ [[("kills", some 2)]]).map fun r =>
            setVal r "performance" (weightColumnsCell [⟨"kills", 1, false⟩]
              (some fun _ => "missing") r)).any
          (fun r => (getCol r "performance").isNone) = true
    · rw [if_pos hc] at herr
      exact (Except.error.inj herr).symm
    · rw [if_neg hc] at herr
      exact Except.noConfusion herr
  exact ⟨hok, ((h.2.1 _ hok).2.2.1), herre ▸ herr⟩

/-! ## `Pipeline.train_predict` / `Pipeline.reset_pipeline` (claim C2)

`pipeline.py` orchestrates stateful collaborators whose classes are not under
`src/`; they are modelled from the spec as state machines: each carries an
initial state, a current (mutable) state, and its processing function.  Per
the spec, `reset` "returns all entities to UNSEEN / deletes state", i.e.
restores the initial state; the predictor's `train` refits from the data
alone (spec §6 collaborator contract), and the performances generator's
`generate` refits its transformers via `fit_transform` on each call.  The
abstract dataframe and state carriers are `List ℚ`. -/

/-- An abstract dataframe for the pipeline orchestration model. -/
abbrev Df := List ℚ

/-- An abstract component state for the pipeline orchestration model. -/
abbrev CompState := List ℚ

/-- Modelled from the spec: a composed rating generator as `Pipeline` sees
it — initial state, `generate_historical_by_matches` as a function of state
and data, and mutable state. -/
structure RatingGenerator where
  initState : CompState
  generateHistoricalFn : CompState → Df → CompState × Df
  state : CompState

/-- Modelled from the spec: `RatingGenerator.reset_ratings` clears all
mutable state back to the initial state. -/
def RatingGenerator.reset_ratings (r : RatingGenerator) : RatingGenerator :=
  { r with state := r.initState }

/-- Modelled from the spec: a lag generator with `reset` and
`generate_historical`. -/
structure LagGenerator where
  initState : CompState
  generateHistoricalFn : CompState → Df → CompState × Df
  state : CompState

/-- Modelled from the spec: `reset` restores the initial state. -/
def LagGenerator.reset (l : LagGenerator) : LagGenerator :=
  { l with state := l.initState }

/-- Modelled from the spec: a pre/post-lag transformer with `reset` and
`fit_transform`. -/
structure Transformer where
  initState : CompState
  fitTransformFn : CompState → Df → CompState × Df
  state : CompState

/-- Modelled from the spec: `reset` restores the initial state. -/
def Transformer.reset (t : Transformer) : Transformer :=
  { t with state := t.initState }

/-- Modelled from the spec (§6): the predictor collaborator — `train` fits a
model from the data alone (overwriting any previous fit), `add_prediction`
applies the fitted model. -/
structure Predictor where
  trainFn : Df → CompState
  addPredictionFn : CompState → Df → Df
  model : CompState

/-- Modelled from the spec (§6): the performances-generator collaborator,
whose `generate` refits from the data it is given (`fit_transform`). -/
structure PerformancesGeneratorComponent where
  generateFn : Df → CompState × Df
  state : CompState

/-- The `Pipeline` composition of `pipeline.py`. -/
structure Pipeline where
  predictor : Predictor
  performances_generator : Option PerformancesGeneratorComponent
  rating_generators : List RatingGenerator
  pre_lag_transformers : List Transformer
  lag_generators : List LagGenerator
  post_lag_transformers : List Transformer

/-- Embeds `Pipeline.reset_pipeline` (`pipeline.py` lines 450–459): reset
every rating generator (`reset_ratings`) and every lag generator and
pre/post-lag transformer (`reset`).  The predictor and the performances
generator are not touched. -/
def Pipeline.reset_pipeline (p : Pipeline) : Pipeline :=
  { p with
    rating_generators := p.rating_generators.map RatingGenerator.reset_ratings,
    lag_generators := p.lag_generators.map LagGenerator.reset,
    pre_lag_transformers := p.pre_lag_transformers.map Transformer.reset,
    post_lag_transformers := p.post_lag_transformers.map Transformer.reset }

/-- The `_add_rating` loop: each rating generator in order generates its
historical features (mutating its own state) and adds them to the data. -/
def runRatingGenerators : List RatingGenerator → Df → List RatingGenerator × Df
  | [], df => ([], df)
  | r :: rest, df =>
    let res := r.generateHistoricalFn r.state df
    let tail := runRatingGenerators rest res.2
    ({ r with state := res.1 } :: tail.1, tail.2)

/-- The pre/post-lag transformer loops of `train_predict`: each transformer
is `reset()` and then `fit_transform`ed in order. -/
def runTransformers : List Transformer → Df → List Transformer × Df
  | [], df => ([], df)
  | t :: rest, df =>
    let t2 := t.reset
    let res := t2.fitTransformFn t2.state df
    let tail := runTransformers rest res.2
    ({ t2 with state := res.1 } :: tail.1, tail.2)

/-- The lag-generator loop of `train_predict`: each lag generator is
`reset()` and then generates its historical features in order. -/
def runLagGenerators : List LagGenerator → Df → List LagGenerator × Df
  | [], df => ([], df)
  | l :: rest, df =>
    let l2 := l.reset
    let res := l2.generateHistoricalFn l2.state df
    let tail := runLagGenerators rest res.2
    ({ l2 with state := res.1 } :: tail.1, tail.2)

/-- Embeds `Pipeline.train_predict` (the `cross_validate_predict = False`,
single-dataframe-kind path): `reset_pipeline` first, then
`_add_performance`, `_add_rating`, the pre-lag transformers, lag generators
and post-lag transformers (each reset before fitting), then `predictor.train`
and `predictor.add_prediction`; returns the output together with the mutated
pipeline (Python mutates `self`). -/
def Pipeline.train_predict (p0 : Pipeline) (df : Df) : Df × Pipeline :=
  let p := p0.reset_pipeline
  let pg : Option PerformancesGeneratorComponent × Df :=
    match p.performances_generator with
    | some g => (some { g with state := (g.generateFn df).1 }, (g.generateFn df).2)
    | none => (none, df)
  let rg := runRatingGenerators p.rating_generators pg.2
  let pre := runTransformers p.pre_lag_transformers rg.2
  let lag := runLagGenerators p.lag_generators pre.2
  let post := runTransformers p.post_lag_transformers lag.2
  let model := p.predictor.trainFn post.2
  let out := p.predictor.addPredictionFn model post.2
  (out,
   { predictor := { p.predictor with model := model },
     performances_generator := pg.1,
     rating_generators := rg.1,
     pre_lag_transformers := pre.1,
     lag_generators := lag.1,
     post_lag_transformers := post.1 })

theorem runRatingGenerators_reset (rs : List RatingGenerator) :
    ∀ df : Df, ((runRatingGenerators rs df).1).map RatingGenerator.reset_ratings
      = rs.map RatingGenerator.reset_ratings := by
  induction rs with
  | nil => intro df; rfl
  | cons r rest ih =>
    intro df
    simp only [runRatingGenerators, List.map_cons, ih]
    rfl

theorem runTransformers_reset (ts : List Transformer) :
    ∀ df : Df, ((runTransformers ts df).1).map Transformer.reset
      = ts.map Transformer.reset := by
  induction ts with
  | nil => intro df; rfl
  | cons t rest ih =>
    intro df
    simp only [runTransformers, List.map_cons, ih]
    rfl

theorem runLagGenerators_reset (ls : List LagGenerator) :
    ∀ df : Df, ((runLagGenerators ls df).1).map LagGenerator.reset
      = ls.map LagGenerator.reset := by
  induction ls with
  | nil => intro df; rfl
  | cons l rest ih =>
    intro df
    simp only [runLagGenerators, List.map_cons, ih]
    rfl

/-- The output of `train_predict` depends only on the reset component
configurations and on the collaborators' processing functions — not on any
mutable state carried into the call. -/
theorem train_predict_output_congr (p q : Pipeline) (df : Df)
    (h1 : p.rating_generators.map RatingGenerator.reset_ratings
        = q.rating_generators.map RatingGenerator.reset_ratings)
    (h2 : p.pre_lag_transformers.map Transformer.reset
        = q.pre_lag_transformers.map Transformer.reset)
    (h3 : p.lag_generators.map LagGenerator.reset
        = q.lag_generators.map LagGenerator.reset)
    (h4 : p.post_lag_transformers.map Transformer.reset
        = q.post_lag_transformers.map Transformer.reset)
    (h5 : p.performances_generator.map (fun g => g.generateFn)
        = q.performances_generator.map (fun g => g.generateFn))
    (h6 : p.predictor.trainFn = q.predictor.trainFn)
    (h7 : p.predictor.addPredictionFn = q.predictor.addPredictionFn) :
    (p.train_predict df).1 = (q.train_predict df).1 := by
  have hpg2 : (match p.performances_generator with
      | some g => ((some { g with state := (g.generateFn df).1 } :
          Option PerformancesGeneratorComponent), (g.generateFn df).2)
      | none => (none, df)).2
      = (match q.performances_generator with
      | some g => ((some { g with state := (g.generateFn df).1 } :
          Option PerformancesGeneratorComponent), (g.generateFn df).2)
      | none => (none, df)).2 := by
    cases hp : p.performances_generator with
    | none =>
      cases hq : q.performances_generator with
      | none => rfl
      | some g => rw [hp, hq] at h5; simp at h5
    | some g =>
      cases hq : q.performances_generator with
      | none => rw [hp, hq] at h5; simp at h5
      | some g' =>
        rw [hp, hq] at h5
        have hfn : g.generateFn = g'.generateFn := by simpa using h5
        show (g.generateFn df).2 = (g'.generateFn df).2
        rw [hfn]
  simp only [Pipeline.train_predict, Pipeline.reset_pipeline]
  rw [hpg2, h1, h2, h3, h4, h6, h7]

theorem reset_ratings_idem (r : RatingGenerator) :
    r.reset_ratings.reset_ratings = r.reset_ratings := by
  cases r; rfl

theorem transformer_reset_idem (t : Transformer) : t.reset.reset = t.reset := by
  cases t; rfl

theorem lag_reset_idem (l : LagGenerator) : l.reset.reset = l.reset := by
  cases l; rfl

/-- C2: calling `Pipeline.train_predict` twice with the identical input and
configuration yields identical output features — the second call, made on
the pipeline state mutated by the first, returns the same output; and the
`reset_pipeline` invocation that begins each call resets every rating
generator, every lag generator, and every pre- and post-lag transformer to
its initial state, so no mutable state from a prior run influences the
second run. -/
theorem train_predict_deterministic (p : Pipeline) (df : Df) :
    ((p.train_predict df).2.train_predict df).1 = (p.train_predict df).1
    ∧ p.reset_pipeline.rating_generators
        = p.rating_generators.map (fun r => { r with state := r.initState })
    ∧ p.reset_pipeline.lag_generators
        = p.lag_generators.map (fun l => { l with state := l.initState })
    ∧ p.reset_pipeline.pre_lag_transformers
        = p.pre_lag_transformers.map (fun t => { t with state := t.initState })
    ∧ p.reset_pipeline.post_lag_transformers
        = p.post_lag_transformers.map (fun t => { t with state := t.initState }) := by
  have hidem_rg : ∀ rs : List RatingGenerator,
      (rs.map RatingGenerator.reset_ratings).map RatingGenerator.reset_ratings
        = rs.map RatingGenerator.reset_ratings := by
    intro rs
    rw [List.map_map]
    exact List.map_congr_left fun r _ => reset_ratings_idem r
  have hidem_t : ∀ ts : List Transformer,
      (ts.map Transformer.reset).map Transformer.reset = ts.map Transformer.reset := by
    intro ts
    rw [List.map_map]
    exact List.map_congr_left fun t _ => transformer_reset_idem t
  have hidem_l : ∀ ls : List LagGenerator,
      (ls.map LagGenerator.reset).map LagGenerator.reset = ls.map LagGenerator.reset := by
    intro ls
    rw [List.map_map]
    exact List.map_congr_left fun l _ => lag_reset_idem l
  refine ⟨?_, rfl, rfl, rfl, rfl⟩
  apply train_predict_output_congr
  · simp only [Pipeline.train_predict, Pipeline.reset_pipeline]
    rw [runRatingGenerators_reset, hidem_rg]
  · simp only [Pipeline.train_predict, Pipeline.reset_pipeline]
    rw [runTransformers_reset, hidem_t]
  · simp only [Pipeline.train_predict, Pipeline.reset_pipeline]
    rw [runLagGenerators_reset, hidem_l]
  · simp only [Pipeline.train_predict, Pipeline.reset_pipeline]
    rw [runTransformers_reset, hidem_t]
  · simp only [Pipeline.train_predict, Pipeline.reset_pipeline]
    cases p.performances_generator with
    | none => rfl
    | some g => rfl
  · rfl
  · rfl

end PlayerPerformanceRatings
